import Mathlib

/-
Verification of the job-queue and execution coordinator of the Meeting-ASR
backend (src/backend/job_queue.py) against its specification.

Shallow embedding notes:
  * `asyncio.Queue` is modelled as a `List JobTask` (head = front, `put` =
    append at the back); the source pre-checks capacity before every `put`,
    so the blocking behaviour of a full queue is unreachable on the
    modelled paths.
  * The `active_jobs` dict (`job_id -> JobTask`, insertion ordered) is an
    association list; `user_job_counts` (a dict with `.get(u, 0)` reads) is
    a total function `Nat -> Nat` defaulting to 0.
  * The job store (database rows touched by the queue code) is a partial
    map `Nat -> Option JobRecord`; `update_job_status` / `update_job_progress`
    are translated from src/backend/database/crud.py.  Timestamp columns
    (`started_at`, `completed_at`, `processing_time`) are not referenced by
    any claim and are omitted.
  * `JobTask.created_at` (observability only) and `JobTask.callback`
    (a function value; `add_job` always stores the registered handler there,
    and `_process_audio_file` falls back to the same registered handler) are
    not modelled as task fields; `process_job` instead takes the resolved
    handler `job_task.callback or self._process_handler` as an argument.
  * The processing handler is opaque: `Handler := Store -> Store x Option String`,
    returning the store it produced and `some e` when it raised an
    exception with text `e` (Python `str(e)`), `none` on normal return.
  * Notifications are recorded structurally (kind plus payload fields);
    the free-text `message` strings of the payloads are elided.
  * `progress` (a Python float written only by exact clamps and the
    constants 0.0 / 100.0 on the modelled paths) is modelled as `Rat`.
-/

namespace MeetingASR

/-- Job lifecycle states, from `JobStatus` in src/backend/database/models.py. -/
inductive JobStatus where
  | queued
  | processing
  | completed
  | failed
  | cancelled
deriving DecidableEq

/-- The fields of a persistent job record that the queue code reads or
writes (model of the `Job` row restricted to `status`, `progress`,
`error_message`). -/
structure JobRecord where
  status : JobStatus
  progress : Option Rat
  error_message : Option String
deriving DecidableEq

/-- The job store: a partial map from job id to its record. -/
abbrev Store := Nat → Option JobRecord

/-- Model of `update_job_status` (src/backend/database/crud.py): no-op when
the record is missing; otherwise sets the status and, only when the error
message is present and non-empty (Python `if error_message:`), the error
message. -/
def update_job_status (store : Store) (job_id : Nat) (st : JobStatus)
    (err : Option String) : Store :=
  fun j =>
    if j = job_id then
      (store job_id).map (fun r =>
        { r with
          status := st,
          error_message :=
            match err with
            | some e => if e = "" then r.error_message else some e
            | none => r.error_message })
    else store j

/-- Model of `update_job_progress` (src/backend/database/crud.py): no-op
when the record is missing; otherwise stores the progress clamped to
[0, 100]. -/
def update_job_progress (store : Store) (job_id : Nat) (p : Rat) : Store :=
  fun j =>
    if j = job_id then
      (store job_id).map (fun r => { r with progress := some (max 0 (min 100 p)) })
    else store j

/-- In-memory task handed through the queue (dataclass `JobTask`). -/
structure JobTask where
  job_id : Nat
  user_id : Nat
  file_path : String
  filename : String
  priority : Int
  status : JobStatus
  progress : Rat
  error_message : Option String
deriving DecidableEq

/-- The task built by `add_job`: status `QUEUED`, progress 0, no error. -/
def mkJobTask (job_id user_id : Nat) (file_path filename : String)
    (priority : Int) : JobTask :=
  { job_id := job_id, user_id := user_id, file_path := file_path,
    filename := filename, priority := priority,
    status := JobStatus.queued, progress := 0, error_message := none }

/-- The opaque processing handler: given the store it runs against, it
returns the store it left behind and `some e` when it raised an exception
with text `e`, `none` on normal return. -/
abbrev Handler := Store → Store × Option String

/-- Notifications sent through `_notify_user`, recorded structurally
(payload `type` plus the fields the claims reference; free-text `message`
strings elided). -/
inductive Notif where
  | error (user_id : Nat)
  | job_queued (user_id job_id queue_position : Nat)
  | job_started (user_id job_id : Nat)
  | job_completed (user_id job_id : Nat) (filename : String)
      (status : JobStatus) (progress : Rat)
  | job_failed (user_id job_id : Nat) (error : String)
  | job_cancelled (user_id job_id : Nat)
deriving DecidableEq

/-- Mutable state of `JobQueueManager`: the bounded queue, the execution
tracker `active_jobs`, and the per-user counters, together with the
configured limits. -/
structure ManagerState where
  max_concurrent_jobs : Nat
  max_queue_size : Nat
  queue : List JobTask
  active_jobs : List (Nat × JobTask)
  user_job_counts : Nat → Nat
  max_jobs_per_user : Nat

/-- `JobQueueManager.__init__`: empty queue and tracker, all counters 0;
`max_jobs_per_user` falls back to 2 unless a positive value is given. -/
def initState (max_concurrent_jobs max_queue_size : Nat)
    (max_jobs_per_user : Option Nat) : ManagerState :=
  { max_concurrent_jobs := max_concurrent_jobs,
    max_queue_size := max_queue_size,
    queue := [],
    active_jobs := [],
    user_job_counts := fun _ => 0,
    max_jobs_per_user :=
      match max_jobs_per_user with
      | some v => if 0 < v then v else 2
      | none => 2 }

/-- Python dict assignment `d[k] = v`: replace in place when the key is
present, else append (insertion order preserved). -/
def dictInsert (d : List (Nat × JobTask)) (k : Nat) (v : JobTask) :
    List (Nat × JobTask) :=
  if d.any (fun p => p.1 == k) then
    d.map (fun p => if p.1 == k then (k, v) else p)
  else d ++ [(k, v)]

/-- Result of `add_job`. -/
structure AddResult where
  ok : Bool
  state : ManagerState
  store : Store
  notifs : List Notif

/-- Model of `JobQueueManager.add_job`: reject (with an `error`
notification) when the caller's counter has reached `max_jobs_per_user` or
the queue is at `max_queue_size`; otherwise append the new `QUEUED` task,
bump the caller's counter, persist `QUEUED` to the store, and emit
`job_queued` whose `queue_position` is the queue size right after the
insertion. -/
def add_job (s : ManagerState) (store : Store) (job_id user_id : Nat)
    (file_path filename : String) (priority : Int) : AddResult :=
  if s.max_jobs_per_user ≤ s.user_job_counts user_id then
    { ok := false, state := s, store := store, notifs := [Notif.error user_id] }
  else if s.max_queue_size ≤ s.queue.length then
    { ok := false, state := s, store := store, notifs := [Notif.error user_id] }
  else
    let t := mkJobTask job_id user_id file_path filename priority
    { ok := true,
      state :=
        { s with
          queue := s.queue ++ [t],
          user_job_counts := fun v =>
            if v = user_id then s.user_job_counts user_id + 1
            else s.user_job_counts v },
      store := update_job_status store job_id JobStatus.queued none,
      notifs := [Notif.job_queued user_id job_id (s.queue.length + 1)] }

/-- Individual side effects of `add_job`, used to state in which order the
source performs them. -/
inductive AddEvent where
  | enqueue (t : JobTask)
  | bumpCount (user_id : Nat)
  | storeWrite (job_id : Nat) (st : JobStatus)
  | notify (n : Notif)
deriving DecidableEq

/-- Interpreter for one `add_job` side effect. -/
def applyAddEvent : ManagerState × Store × List Notif → AddEvent →
    ManagerState × Store × List Notif
  | (s, st, ns), AddEvent.enqueue t => ({ s with queue := s.queue ++ [t] }, st, ns)
  | (s, st, ns), AddEvent.bumpCount u =>
      ({ s with user_job_counts := fun v =>
          if v = u then s.user_job_counts u + 1 else s.user_job_counts v }, st, ns)
  | (s, st, ns), AddEvent.storeWrite j sta => (s, update_job_status st j sta none, ns)
  | (s, st, ns), AddEvent.notify n => (s, st, ns ++ [n])

/-- The side effects of `add_job` in the order the source performs them:
on the accept path `queue.put`, then the counter bump, then the store
write, then the notification. -/
def add_job_trace (s : ManagerState) (job_id user_id : Nat)
    (file_path filename : String) (priority : Int) : List AddEvent :=
  if s.max_jobs_per_user ≤ s.user_job_counts user_id then
    [AddEvent.notify (Notif.error user_id)]
  else if s.max_queue_size ≤ s.queue.length then
    [AddEvent.notify (Notif.error user_id)]
  else
    let t := mkJobTask job_id user_id file_path filename priority
    [AddEvent.enqueue t,
     AddEvent.bumpCount user_id,
     AddEvent.storeWrite job_id JobStatus.queued,
     AddEvent.notify (Notif.job_queued user_id job_id (s.queue.length + 1))]

/-- Result of `cancel_job`. -/
structure CancelResult where
  cancelled : Bool
  state : ManagerState
  store : Store
  notifs : List Notif

/-- Outcome of the drain loop of `cancel_job`. -/
structure CancelScanOut where
  cancelled : Bool
  temp : List JobTask
  store : Store
  notifs : List Notif

/-- The drain loop of `cancel_job`: pop every task off the queue front; a
task matching both ids is dropped (persisting `CANCELLED` and notifying),
every other task is pushed onto the temp queue in order. -/
def cancelScan (job_id user_id : Nat) : List JobTask → Store → CancelScanOut
  | [], st => { cancelled := false, temp := [], store := st, notifs := [] }
  | t :: ts, st =>
      if t.job_id = job_id ∧ t.user_id = user_id then
        let st2 := update_job_status st job_id JobStatus.cancelled none
        let o := cancelScan job_id user_id ts st2
        { cancelled := true, temp := o.temp, store := o.store,
          notifs := Notif.job_cancelled user_id job_id :: o.notifs }
      else
        let o := cancelScan job_id user_id ts st
        { cancelled := o.cancelled, temp := t :: o.temp, store := o.store,
          notifs := o.notifs }

/-- Model of `JobQueueManager.cancel_job`: scan-and-rebuild; the restore
loop pours the temp queue back in order, so the new queue is exactly
`temp`. -/
def cancel_job (s : ManagerState) (store : Store) (job_id user_id : Nat) :
    CancelResult :=
  let o := cancelScan job_id user_id s.queue store
  { cancelled := o.cancelled, state := { s with queue := o.temp },
    store := o.store, notifs := o.notifs }

/-- One entry of the `jobs` list returned by `get_queue_status`
(`queue_position` present only for queued entries, `error_message` only for
active ones; the absent dict keys are modelled as `none`). -/
structure JobInfo where
  job_id : Nat
  filename : String
  status : JobStatus
  progress : Rat
  error_message : Option String
  queue_position : Option Nat
deriving DecidableEq

/-- Info dict built for a task found in the execution tracker. -/
def activeInfo (t : JobTask) : JobInfo :=
  { job_id := t.job_id, filename := t.filename, status := t.status,
    progress := t.progress, error_message := t.error_message,
    queue_position := none }

/-- Info dict built for a queued task: status `QUEUED`, progress 0, and the
running per-user counter as `queue_position`. -/
def queuedInfo (t : JobTask) (pos : Nat) : JobInfo :=
  { job_id := t.job_id, filename := t.filename, status := JobStatus.queued,
    progress := 0, error_message := none, queue_position := some pos }

/-- Outcome of the queue drain loop of `get_queue_status`. -/
structure ScanOut where
  count : Nat
  infos : List JobInfo
  temp : List JobTask

/-- The queue drain loop of `get_queue_status`: walk the queue front to
back with a per-user counter, record an info entry for each task of the
requested user, and push every task onto the temp queue. -/
def gqsScan (user_id : Nat) : List JobTask → Nat → ScanOut
  | [], c => { count := c, infos := [], temp := [] }
  | t :: ts, c =>
      if t.user_id == user_id then
        let o := gqsScan user_id ts (c + 1)
        { count := o.count, infos := queuedInfo t (c + 1) :: o.infos,
          temp := t :: o.temp }
      else
        let o := gqsScan user_id ts c
        { count := o.count, infos := o.infos, temp := t :: o.temp }

/-- The dict returned by `get_queue_status`. -/
structure QueueStatus where
  active_jobs : Nat
  queued_jobs : Nat
  total_queue_size : Nat
  jobs : List JobInfo
deriving DecidableEq

/-- Model of `JobQueueManager.get_queue_status`: collect the user's active
jobs from the tracker, drain the queue collecting the user's queued jobs
(counting positions), restore the queue from the temp queue, and report
the counts together with the restored queue size. -/
def get_queue_status (s : ManagerState) (user_id : Nat) :
    QueueStatus × ManagerState :=
  let activeTasks := (s.active_jobs.map Prod.snd).filter
    (fun t => t.user_id == user_id)
  let o := gqsScan user_id s.queue 0
  ({ active_jobs := activeTasks.length,
     queued_jobs := o.count,
     total_queue_size := o.temp.length,
     jobs := activeTasks.map activeInfo ++ o.infos },
   { s with queue := o.temp })

/-- The exception text raised by `_process_audio_file` when no handler is
registered. -/
def noHandlerMsg : String := "No processing handler configured for job queue"

/-- Result of `_process_job` (the final value of the mutated `job_task`
object is returned alongside the state, store and notifications). -/
structure ProcResult where
  state : ManagerState
  store : Store
  notifs : List Notif
  task : JobTask

/-- The `finally` block of `_process_job`: drop the job from the tracker
and decrement the owner's counter, floored at 0 (Python
`max(0, get(user_id, 1) - 1)`, which over a total counter map defaulting
to 0 is exactly truncated subtraction by one). -/
def cleanup (s : ManagerState) (job_id user_id : Nat) : ManagerState :=
  { s with
    active_jobs := s.active_jobs.filter (fun p => !(p.1 == job_id)),
    user_job_counts := fun v =>
      if v = user_id then s.user_job_counts user_id - 1
      else s.user_job_counts v }

/-- The `except` path of `_process_job`: record the error on the task,
persist `FAILED` plus the error text, and emit `job_failed`. -/
def job_failure (store : Store) (t : JobTask) (e : String) :
    Store × JobTask × List Notif :=
  (update_job_status store t.job_id JobStatus.failed (some e),
   { t with error_message := some e, status := JobStatus.failed },
   [Notif.job_failed t.user_id t.job_id e])

/-- The body of `_process_job` between the `PROCESSING` store write and the
`finally` block: run `_process_audio_file` (which fails when no handler is
registered and re-raises handler exceptions, and on success marks the task
`COMPLETED` at progress 100), then on normal return re-read the job record
and mirror / force / default as the source does; any exception lands in
the `except` path. -/
def process_job_core (store : Store) (t : JobTask) (handler : Option Handler) :
    Store × JobTask × List Notif :=
  match handler with
  | none => job_failure store t noHandlerMsg
  | some h =>
      let store2 := (h store).1
      match (h store).2 with
      | some e => job_failure store2 t e
      | none =>
          let t1 := { t with status := JobStatus.completed, progress := 100 }
          match store2 t.job_id with
          | some rec =>
              let t2 := { t1 with
                status := rec.status,
                progress := rec.progress.getD t1.progress,
                error_message := rec.error_message }
              match rec.status with
              | JobStatus.completed =>
                  let store3 := update_job_progress store2 t.job_id 100
                  let t3 := { t2 with progress := 100 }
                  (store3, t3,
                   [Notif.job_completed t.user_id t.job_id t.filename
                      t3.status t3.progress])
              | JobStatus.failed =>
                  let e :=
                    match rec.error_message with
                    | some m => if m = "" then "Transcription failed" else m
                    | none => "Transcription failed"
                  job_failure store2 t2 e
              | _ =>
                  (store2, t2,
                   [Notif.job_completed t.user_id t.job_id t.filename
                      t2.status t2.progress])
          | none =>
              let store3 := update_job_progress store2 t.job_id 100
              let t3 := { t1 with status := JobStatus.completed, progress := 100 }
              (store3, t3,
               [Notif.job_completed t.user_id t.job_id t.filename
                  t3.status t3.progress])

/-- Model of `JobQueueManager._process_job` run on a dispatched task:
insert into the tracker, persist `PROCESSING`, emit `job_started`, run the
core, and always clean up. -/
def process_job (s : ManagerState) (store : Store) (t : JobTask)
    (handler : Option Handler) : ProcResult :=
  let s1 := { s with active_jobs := dictInsert s.active_jobs t.job_id t }
  let store1 := update_job_status store t.job_id JobStatus.processing none
  let o := process_job_core store1 t handler
  { state := cleanup s1 t.job_id t.user_id,
    store := o.1,
    notifs := Notif.job_started t.user_id t.job_id :: o.2.2,
    task := o.2.1 }

/-- One worker iteration followed by the complete processing of the
dispatched task (atomic in this sequential model): pop the queue front and
run `_process_job` on it; a `get` timeout with an empty queue changes
nothing. -/
def dispatch_process (s : ManagerState) (store : Store)
    (handler : Option Handler) : ManagerState × Store :=
  match s.queue with
  | [] => (s, store)
  | t :: rest =>
      let r := process_job { s with queue := rest } store t handler
      (r.state, r.store)

/-- Number of tasks owned by `u` currently in the queue or the execution
tracker. -/
def userTaskCount (s : ManagerState) (u : Nat) : Nat :=
  (s.queue.filter (fun t => t.user_id == u)).length +
    (s.active_jobs.filter (fun p => p.2.user_id == u)).length

/-- One observable operation on the coordinator state. -/
inductive Step : ManagerState × Store → ManagerState × Store → Prop where
  | admit_step (s : ManagerState) (store : Store) (job_id user_id : Nat)
      (file_path filename : String) (priority : Int) :
      Step (s, store)
        ((add_job s store job_id user_id file_path filename priority).state,
         (add_job s store job_id user_id file_path filename priority).store)
  | cancel_step (s : ManagerState) (store : Store) (job_id user_id : Nat) :
      Step (s, store)
        ((cancel_job s store job_id user_id).state,
         (cancel_job s store job_id user_id).store)
  | dispatch_step (s : ManagerState) (store : Store) (handler : Option Handler) :
      Step (s, store)
        ((dispatch_process s store handler).1,
         (dispatch_process s store handler).2)
  | status_step (s : ManagerState) (store : Store) (user_id : Nat) :
      Step (s, store) ((get_queue_status s user_id).2, store)

/-- States reachable from a freshly constructed manager (over an arbitrary
initial store) by admits, cancellations, dispatch-and-process cycles and
status queries. -/
def Reachable (mc mq : Nat) (mu : Option Nat) (p : ManagerState × Store) : Prop :=
  ∃ st0 : Store, Relation.ReflTransGen Step (initState mc mq mu, st0) p

/-- The structural invariant the claims quantify over: the queue is within
its bound, and every user's counter dominates the user's actual number of
tasks in the queue and tracker. -/
def QueueInv (s : ManagerState) : Prop :=
  s.queue.length ≤ s.max_queue_size ∧
    ∀ u, userTaskCount s u ≤ s.user_job_counts u

/-- One admission request, for stating properties of admit sequences. -/
structure AdmitReq where
  job_id : Nat
  user_id : Nat
  file_path : String
  filename : String
  priority : Int

/-- Run a sequence of admissions, returning the final state and store and
the list of results. -/
def runAdmits : ManagerState → Store → List AdmitReq →
    ManagerState × Store × List Bool
  | s, st, [] => (s, st, [])
  | s, st, r :: rs =>
      let a := add_job s st r.job_id r.user_id r.file_path r.filename r.priority
      let o := runAdmits a.state a.store rs
      (o.1, o.2.1, a.ok :: o.2.2)

/-- Spec-side description of the queued entries reported by the status
query: the tasks of one user in queue order, the entry at offset k
carrying 1-based position c + k. -/
def posMap (c : Nat) : List JobTask → List JobInfo
  | [] => []
  | t :: ts => queuedInfo t c :: posMap (c + 1) ts

/-- Concrete store fixture: a single record for job 1. -/
def wStore : Store := fun j =>
  if j = 1 then
    some { status := JobStatus.queued, progress := some 37, error_message := none }
  else none

/-- Concrete task fixture: job 1 owned by user 10. -/
def wTask : JobTask := mkJobTask 1 10 "uploads/a.wav" "a.wav" 0

/-- Concrete handler fixture that writes `COMPLETED` for job 1 and returns
normally. -/
def wHandlerDone : Handler := fun st =>
  (update_job_status st 1 JobStatus.completed none, none)

/-- Concrete handler fixture that raises an exception. -/
def wHandlerBoom : Handler := fun st => (st, some "boom")

/-- The store `wHandlerDone` leaves behind when run after the `PROCESSING`
write against `wStore`. -/
def wStore2 : Store :=
  update_job_status (update_job_status wStore 1 JobStatus.processing none) 1
    JobStatus.completed none

/-- The record `wStore2` holds for job 1. -/
def wRec : JobRecord :=
  { status := JobStatus.completed, progress := some 37, error_message := none }

/-- Concrete manager fixture: job 1 of user 10 queued, counter 1. -/
def wState1 : ManagerState :=
  { initState 3 50 none with
    queue := [wTask],
    user_job_counts := fun u => if u = 10 then 1 else 0 }

/-- Concrete admission request fixture. -/
def wReq : AdmitReq :=
  { job_id := 1, user_id := 10, file_path := "uploads/a.wav",
    filename := "a.wav", priority := 0 }

/-- Result of admitting job 1 for user 10 into a fresh manager. -/
def wAfterAdd : AddResult :=
  add_job (initState 3 50 none) wStore 1 10 "uploads/a.wav" "a.wav" 0

/-- Result of cancelling job 1 right after that admission. -/
def wAfterCancel : CancelResult :=
  cancel_job wAfterAdd.state wAfterAdd.store 1 10

/-- Concrete manager fixture with user 10 at the per-user cap. -/
def wStateCap : ManagerState :=
  { initState 3 50 none with user_job_counts := fun u => if u = 10 then 2 else 0 }

/-- Concrete manager fixture whose queue (bound 1) is full. -/
def wStateFull : ManagerState :=
  { initState 3 1 none with queue := [wTask] }

/-- Admission of job 1 for user 10 into a manager with per-user cap 1. -/
def wAfterAddCap : AddResult :=
  add_job (initState 3 50 (some 1)) wStore 1 10 "uploads/a.wav" "a.wav" 0

theorem update_job_status_self (store : Store) (jid : Nat) (st : JobStatus)
    (err : Option String) (r : JobRecord) (h : store jid = some r) :
    update_job_status store jid st err jid =
      some { r with
        status := st,
        error_message :=
          match err with
          | some e => if e = "" then r.error_message else some e
          | none => r.error_message } := by
  simp [update_job_status, h]

theorem cancelScan_temp (jid uid : Nat) :
    ∀ (q : List JobTask) (st : Store),
      (cancelScan jid uid q st).temp =
        q.filter (fun t => !(t.job_id == jid && t.user_id == uid)) := by
  intro q
  induction q with
  | nil => intro st; rfl
  | cons t ts ih =>
      intro st
      by_cases h : t.job_id = jid ∧ t.user_id = uid
      · simp [cancelScan, h, h.1, h.2, List.filter_cons, ih]
      · rw [List.filter_cons]
        have hb : (t.job_id == jid && t.user_id == uid) = false := by
          simp [Bool.and_eq_true, beq_iff_eq]
          intro h1; exact fun h2 => h ⟨h1, h2⟩
        simp [cancelScan, h, hb, ih]

theorem cancelScan_cancelled (jid uid : Nat) :
    ∀ (q : List JobTask) (st : Store),
      (cancelScan jid uid q st).cancelled =
        q.any (fun t => t.job_id == jid && t.user_id == uid) := by
  intro q
  induction q with
  | nil => intro st; rfl
  | cons t ts ih =>
      intro st
      by_cases h : t.job_id = jid ∧ t.user_id = uid
      · simp [cancelScan, h, h.1, h.2]
      · have hb : (t.job_id == jid && t.user_id == uid) = false := by
          simp [Bool.and_eq_true, beq_iff_eq]
          intro h1; exact fun h2 => h ⟨h1, h2⟩
        simp [cancelScan, h, hb, ih]

theorem cancelScan_no_match (jid uid : Nat) :
    ∀ (q : List JobTask) (st : Store),
      (cancelScan jid uid q st).cancelled = false →
        (cancelScan jid uid q st).store = st ∧
          (cancelScan jid uid q st).notifs = [] := by
  intro q
  induction q with
  | nil => intro st _; exact ⟨rfl, rfl⟩
  | cons t ts ih =>
      intro st hc
      by_cases h : t.job_id = jid ∧ t.user_id = uid
      · simp [cancelScan, h] at hc
      · simp only [cancelScan, if_neg h] at hc ⊢
        exact ih st hc

theorem cancelScan_store_cancelled (jid uid : Nat) :
    ∀ (q : List JobTask) (st : Store),
      (cancelScan jid uid q st).cancelled = true →
        (st jid).isSome →
          ∃ r2, (cancelScan jid uid q st).store jid = some r2 ∧
            r2.status = JobStatus.cancelled := by
  intro q
  induction q with
  | nil => intro st hc; simp [cancelScan] at hc
  | cons t ts ih =>
      intro st hc hs
      by_cases h : t.job_id = jid ∧ t.user_id = uid
      · obtain ⟨r, hr⟩ := Option.isSome_iff_exists.mp hs
        have hwrite :
            update_job_status st jid JobStatus.cancelled none jid =
              some { r with status := JobStatus.cancelled } := by
          simp [update_job_status, hr]
        simp only [cancelScan, if_pos h]
        by_cases hrec : (cancelScan jid uid ts
            (update_job_status st jid JobStatus.cancelled none)).cancelled = true
        · exact ih _ hrec (by rw [hwrite]; rfl)
        · have hrec2 : (cancelScan jid uid ts
              (update_job_status st jid JobStatus.cancelled none)).cancelled = false :=
            Bool.eq_false_iff.mpr hrec
          have hfix := cancelScan_no_match jid uid ts
            (update_job_status st jid JobStatus.cancelled none) hrec2
          exact ⟨{ r with status := JobStatus.cancelled }, by rw [hfix.1]; exact hwrite, rfl⟩
      · simp only [cancelScan, if_neg h] at hc ⊢
        exact ih st hc hs

theorem cancelScan_notif_mem (jid uid : Nat) :
    ∀ (q : List JobTask) (st : Store),
      (cancelScan jid uid q st).cancelled = true →
        Notif.job_cancelled uid jid ∈ (cancelScan jid uid q st).notifs := by
  intro q
  induction q with
  | nil => intro st hc; simp [cancelScan] at hc
  | cons t ts ih =>
      intro st hc
      by_cases h : t.job_id = jid ∧ t.user_id = uid
      · simp [cancelScan, h]
      · simp only [cancelScan, if_neg h] at hc ⊢
        exact ih st hc

theorem gqsScan_temp (u : Nat) :
    ∀ (q : List JobTask) (c : Nat), (gqsScan u q c).temp = q := by
  intro q
  induction q with
  | nil => intro c; rfl
  | cons t ts ih =>
      intro c
      by_cases h : t.user_id = u <;> simp [gqsScan, h, ih]

theorem gqsScan_count (u : Nat) :
    ∀ (q : List JobTask) (c : Nat),
      (gqsScan u q c).count = c + (q.filter (fun t => t.user_id == u)).length := by
  intro q
  induction q with
  | nil => intro c; simp [gqsScan]
  | cons t ts ih =>
      intro c
      by_cases h : t.user_id = u
      · simp [gqsScan, h, List.filter_cons, ih]
        omega
      · simp [gqsScan, h, List.filter_cons, ih]

theorem gqsScan_infos (u : Nat) :
    ∀ (q : List JobTask) (c : Nat),
      (gqsScan u q c).infos =
        posMap (c + 1) (q.filter (fun t => t.user_id == u)) := by
  intro q
  induction q with
  | nil => intro c; rfl
  | cons t ts ih =>
      intro c
      by_cases h : t.user_id = u
      · simp [gqsScan, h, List.filter_cons, posMap, ih]
      · simp [gqsScan, h, List.filter_cons, ih]

theorem get_queue_status_state (s : ManagerState) (u : Nat) :
    (get_queue_status s u).2 = s := by
  show { s with queue := (gqsScan u s.queue 0).temp } = s
  rw [gqsScan_temp]

theorem filter_map_replace (k : Nat) (v : JobTask) :
    ∀ d : List (Nat × JobTask),
      ((d.map (fun p => if p.1 == k then (k, v) else p)).filter
          (fun p => !(p.1 == k))) =
        d.filter (fun p => !(p.1 == k)) := by
  intro d
  induction d with
  | nil => rfl
  | cons a d ih =>
      cases hb : (a.1 == k) with
      | true => simp only [List.map_cons, List.filter_cons, hb, Bool.not_true,
          beq_self_eq_true, if_true, Bool.false_eq_true, if_false, ih]
      | false => simp only [List.map_cons, List.filter_cons, hb, Bool.not_false,
          Bool.false_eq_true, if_false, if_true, ih]

theorem filter_dictInsert (d : List (Nat × JobTask)) (k : Nat) (v : JobTask) :
    (dictInsert d k v).filter (fun p => !(p.1 == k)) =
      d.filter (fun p => !(p.1 == k)) := by
  unfold dictInsert
  split
  · exact filter_map_replace k v d
  · simp [List.filter_append]

theorem process_job_state (s : ManagerState) (store : Store) (t : JobTask)
    (h : Option Handler) :
    (process_job s store t h).state =
      cleanup { s with active_jobs := dictInsert s.active_jobs t.job_id t }
        t.job_id t.user_id := rfl

theorem initState_inv (mc mq : Nat) (mu : Option Nat) :
    QueueInv (initState mc mq mu) := by
  constructor
  · simp [initState]
  · intro u; simp [userTaskCount, initState]

theorem add_job_reject_of_cap (s : ManagerState) (store : Store)
    (jid uid : Nat) (fp fn : String) (pr : Int)
    (h : s.max_jobs_per_user ≤ s.user_job_counts uid) :
    (add_job s store jid uid fp fn pr).ok = false ∧
      (add_job s store jid uid fp fn pr).state = s ∧
      (add_job s store jid uid fp fn pr).store = store ∧
      (add_job s store jid uid fp fn pr).notifs = [Notif.error uid] := by
  simp [add_job, h]

theorem add_job_reject_of_full (s : ManagerState) (store : Store)
    (jid uid : Nat) (fp fn : String) (pr : Int)
    (h : s.max_queue_size ≤ s.queue.length) :
    (add_job s store jid uid fp fn pr).ok = false ∧
      (add_job s store jid uid fp fn pr).state = s ∧
      (add_job s store jid uid fp fn pr).store = store ∧
      (add_job s store jid uid fp fn pr).notifs = [Notif.error uid] := by
  unfold add_job
  by_cases h1 : s.max_jobs_per_user ≤ s.user_job_counts uid <;> simp [h1, h]

theorem add_job_accept (s : ManagerState) (store : Store) (jid uid : Nat)
    (fp fn : String) (pr : Int)
    (h1 : s.user_job_counts uid < s.max_jobs_per_user)
    (h2 : s.queue.length < s.max_queue_size) :
    add_job s store jid uid fp fn pr =
      { ok := true,
        state := { s with
          queue := s.queue ++ [mkJobTask jid uid fp fn pr],
          user_job_counts := fun v =>
            if v = uid then s.user_job_counts uid + 1
            else s.user_job_counts v },
        store := update_job_status store jid JobStatus.queued none,
        notifs := [Notif.job_queued uid jid (s.queue.length + 1)] } := by
  rw [add_job, if_neg (by omega), if_neg (by omega)]

theorem add_job_ok_facts (s : ManagerState) (store : Store) (jid uid : Nat)
    (fp fn : String) (pr : Int)
    (h : (add_job s store jid uid fp fn pr).ok = true) :
    (add_job s store jid uid fp fn pr).state.queue.length = s.queue.length + 1 ∧
      (add_job s store jid uid fp fn pr).state.max_queue_size = s.max_queue_size := by
  by_cases h1 : s.max_jobs_per_user ≤ s.user_job_counts uid
  · rw [(add_job_reject_of_cap s store jid uid fp fn pr h1).1] at h
    exact absurd h (by simp)
  · by_cases h2 : s.max_queue_size ≤ s.queue.length
    · rw [(add_job_reject_of_full s store jid uid fp fn pr h2).1] at h
      exact absurd h (by simp)
    · rw [add_job_accept s store jid uid fp fn pr (by omega) (by omega)]
      simp

theorem length_filter_singleton (t : JobTask) (u : Nat) :
    (List.filter (fun x => x.user_id == u) [t]).length =
      if t.user_id = u then 1 else 0 := by
  by_cases h : t.user_id = u <;> simp [List.filter_cons, h]

theorem add_job_inv (s : ManagerState) (store : Store) (jid uid : Nat)
    (fp fn : String) (pr : Int) (h : QueueInv s) :
    QueueInv (add_job s store jid uid fp fn pr).state := by
  by_cases h1 : s.max_jobs_per_user ≤ s.user_job_counts uid
  · rw [(add_job_reject_of_cap s store jid uid fp fn pr h1).2.1]; exact h
  · by_cases h2 : s.max_queue_size ≤ s.queue.length
    · rw [(add_job_reject_of_full s store jid uid fp fn pr h2).2.1]; exact h
    · rw [add_job_accept s store jid uid fp fn pr (by omega) (by omega)]
      constructor
      · simp only [List.length_append, List.length_singleton]
        omega
      · intro u
        have hu := h.2 u
        simp only [userTaskCount, List.filter_append, List.length_append,
          length_filter_singleton, mkJobTask] at hu ⊢
        by_cases he : u = uid
        · subst he
          simp only [eq_self_iff_true, if_true] at hu ⊢
          omega
        · have hne : ¬(uid = u) := fun hc => he hc.symm
          simp only [if_neg hne, if_neg he] at hu ⊢
          omega

theorem cancel_job_inv (s : ManagerState) (store : Store) (jid uid : Nat)
    (h : QueueInv s) : QueueInv (cancel_job s store jid uid).state := by
  have hq : (cancel_job s store jid uid).state.queue =
      s.queue.filter (fun t => !(t.job_id == jid && t.user_id == uid)) :=
    cancelScan_temp jid uid s.queue store
  constructor
  · show (cancel_job s store jid uid).state.queue.length ≤ s.max_queue_size
    rw [hq]
    exact le_trans (List.length_filter_le _ _) h.1
  · intro u
    have hu := h.2 u
    show (List.filter (fun t => t.user_id == u)
        (cancel_job s store jid uid).state.queue).length +
      (List.filter (fun p => p.2.user_id == u) s.active_jobs).length ≤
        s.user_job_counts u
    rw [hq]
    have hsub : List.Sublist
        (List.filter (fun t => t.user_id == u)
          (s.queue.filter (fun t => !(t.job_id == jid && t.user_id == uid))))
        (List.filter (fun t => t.user_id == u) s.queue) :=
      List.Sublist.filter _ (List.filter_sublist s.queue)
    have hlen := List.Sublist.length_le hsub
    simp only [userTaskCount] at hu
    omega

theorem dispatch_inv (s : ManagerState) (store : Store) (h : Option Handler)
    (hinv : QueueInv s) : QueueInv (dispatch_process s store h).1 := by
  unfold dispatch_process
  cases hq : s.queue with
  | nil => exact hinv
  | cons t rest =>
      simp only
      rw [process_job_state]
      constructor
      · show rest.length ≤ s.max_queue_size
        have h1 := hinv.1
        rw [hq] at h1
        simp only [List.length_cons] at h1
        omega
      · intro u
        have hu := hinv.2 u
        simp only [userTaskCount, hq, List.filter_cons] at hu
        have htr :
            (List.filter (fun p => p.2.user_id == u)
              ((dictInsert s.active_jobs t.job_id t).filter
                (fun p => !(p.1 == t.job_id)))).length ≤
            (List.filter (fun p => p.2.user_id == u) s.active_jobs).length := by
          rw [filter_dictInsert]
          exact List.Sublist.length_le
            (List.Sublist.filter _ (List.filter_sublist s.active_jobs))
        show (List.filter (fun x => x.user_id == u) rest).length +
            (List.filter (fun p => p.2.user_id == u)
              ((dictInsert s.active_jobs t.job_id t).filter
                (fun p => !(p.1 == t.job_id)))).length ≤
            (if u = t.user_id then s.user_job_counts t.user_id - 1
             else s.user_job_counts u)
        by_cases he : u = t.user_id
        · subst he
          rw [if_pos rfl]
          simp only [beq_self_eq_true, if_true, List.length_cons] at hu
          omega
        · rw [if_neg he]
          have hc : (t.user_id == u) = false := by
            simp only [beq_eq_false_iff_ne, ne_eq]
            exact fun hx => he hx.symm
          simp only [hc, Bool.false_eq_true, if_false] at hu
          omega

theorem step_inv {p q : ManagerState × Store} (hs : Step p q)
    (h : QueueInv p.1) : QueueInv q.1 := by
  cases hs with
  | admit_step s store jid uid fp fn pr => exact add_job_inv s store jid uid fp fn pr h
  | cancel_step s store jid uid => exact cancel_job_inv s store jid uid h
  | dispatch_step s store handler => exact dispatch_inv s store handler h
  | status_step s store u =>
      show QueueInv (get_queue_status s u).2
      rw [get_queue_status_state]
      exact h

theorem reachable_inv (mc mq : Nat) (mu : Option Nat) (p : ManagerState × Store)
    (h : Reachable mc mq mu p) : QueueInv p.1 := by
  obtain ⟨st0, hsteps⟩ := h
  induction hsteps with
  | refl => exact initState_inv mc mq mu
  | tail hst hstep ih => exact step_inv hstep ih

theorem runAdmits_all_ok (reqs : List AdmitReq) :
    ∀ (s : ManagerState) (st : Store),
      (runAdmits s st reqs).2.2.all id = true →
        (runAdmits s st reqs).1.queue.length = s.queue.length + reqs.length ∧
          (runAdmits s st reqs).1.max_queue_size = s.max_queue_size := by
  induction reqs with
  | nil => intro s st _; exact ⟨rfl, rfl⟩
  | cons r rs ih =>
      intro s st hall
      simp only [runAdmits, List.all_cons, Bool.and_eq_true, id] at hall
      obtain ⟨hok, hrest⟩ := hall
      have hfacts := add_job_ok_facts s st r.job_id r.user_id r.file_path
        r.filename r.priority hok
      have ihh := ih (add_job s st r.job_id r.user_id r.file_path r.filename
          r.priority).state
        (add_job s st r.job_id r.user_id r.file_path r.filename r.priority).store
        hrest
      simp only [runAdmits]
      constructor
      · rw [ihh.1, hfacts.1]
        simp only [List.length_cons]
        omega
      · rw [ihh.2, hfacts.2]

theorem cancelScan_no_match_temp (jid uid : Nat) (q : List JobTask) (st : Store)
    (h : (cancelScan jid uid q st).cancelled = false) :
    (cancelScan jid uid q st).temp = q := by
  rw [cancelScan_temp]
  rw [cancelScan_cancelled] at h
  apply List.filter_eq_self.mpr
  intro a ha
  have hfa : (a.job_id == jid && a.user_id == uid) = false := by
    by_cases hb : (a.job_id == jid && a.user_id == uid) = true
    · exact absurd (List.any_eq_true.mpr ⟨a, ha, hb⟩) (by rw [h]; simp)
    · exact Bool.eq_false_iff.mpr hb
  rw [hfa]
  rfl

theorem add_job_trace_fold (s : ManagerState) (store : Store) (jid uid : Nat)
    (fp fn : String) (pr : Int) :
    List.foldl applyAddEvent (s, store, [])
        (add_job_trace s jid uid fp fn pr) =
      ((add_job s store jid uid fp fn pr).state,
       (add_job s store jid uid fp fn pr).store,
       (add_job s store jid uid fp fn pr).notifs) := by
  unfold add_job add_job_trace
  by_cases h1 : s.max_jobs_per_user ≤ s.user_job_counts uid
  · simp only [if_pos h1]
    rfl
  · by_cases h2 : s.max_queue_size ≤ s.queue.length
    · simp only [if_neg h1, if_pos h2]
      rfl
    · simp only [if_neg h1, if_neg h2]
      rfl

/-- C1 evaluates the code at the failing input of the counter-invariant
claim: a fresh manager admits job 1 for user 10 (counter becomes 1), the
job is then successfully cancelled while still queued, and `cancel_job`
leaves `user_job_counts` untouched: the counter stays 1 although user 10
has no task left in the queue or the execution tracker. -/
theorem C1_cancel_count_leak :
    wAfterAdd.ok = true ∧
    wAfterCancel.cancelled = true ∧
    wAfterCancel.state.user_job_counts 10 = 1 ∧
    userTaskCount wAfterCancel.state 10 = 0 := by
  refine ⟨rfl, rfl, rfl, rfl⟩

/-- C2: `cancel_job` returns true exactly when the queue holds a
not-yet-dispatched task matching both `job_id` and `user_id`; in that case
the matching task is removed (all other tasks kept, in order), `CANCELLED`
is persisted to the job store (whenever the store holds a record for the
job), and a `job_cancelled` notification is emitted.  With no match it
returns false with the state, store and notification log untouched; and a
second cancel of the same `job_id` always returns false. -/
theorem C2_cancel_semantics (s : ManagerState) (store : Store) (jid uid : Nat) :
    ((cancel_job s store jid uid).cancelled = true ↔
      ∃ t ∈ s.queue, t.job_id = jid ∧ t.user_id = uid) ∧
    (cancel_job s store jid uid).state.queue =
      s.queue.filter (fun t => !(t.job_id == jid && t.user_id == uid)) ∧
    ((cancel_job s store jid uid).cancelled = true →
      (∀ r, store jid = some r →
        ∃ r2, (cancel_job s store jid uid).store jid = some r2 ∧
          r2.status = JobStatus.cancelled) ∧
      Notif.job_cancelled uid jid ∈ (cancel_job s store jid uid).notifs) ∧
    ((cancel_job s store jid uid).cancelled = false →
      (cancel_job s store jid uid).state = s ∧
        (cancel_job s store jid uid).store = store ∧
        (cancel_job s store jid uid).notifs = []) ∧
    (∀ store2 : Store,
      (cancel_job (cancel_job s store jid uid).state store2 jid uid).cancelled =
        false) := by
  have hcan : (cancel_job s store jid uid).cancelled =
      s.queue.any (fun t => t.job_id == jid && t.user_id == uid) :=
    cancelScan_cancelled jid uid s.queue store
  have hqueue : (cancel_job s store jid uid).state.queue =
      s.queue.filter (fun t => !(t.job_id == jid && t.user_id == uid)) :=
    cancelScan_temp jid uid s.queue store
  refine ⟨?_, hqueue, ?_, ?_, ?_⟩
  · rw [hcan]
    simp [List.any_eq_true, Bool.and_eq_true, beq_iff_eq]
  · intro hc
    refine ⟨?_, cancelScan_notif_mem jid uid s.queue store hc⟩
    intro r hr
    exact cancelScan_store_cancelled jid uid s.queue store hc (by rw [hr]; rfl)
  · intro hc
    have hno := cancelScan_no_match jid uid s.queue store hc
    have htemp := cancelScan_no_match_temp jid uid s.queue store hc
    refine ⟨?_, hno.1, hno.2⟩
    show { s with queue := (cancelScan jid uid s.queue store).temp } = s
    rw [htemp]
  · intro store2
    have h2 : (cancel_job (cancel_job s store jid uid).state store2 jid uid).cancelled =
        (cancel_job s store jid uid).state.queue.any
          (fun t => t.job_id == jid && t.user_id == uid) :=
      cancelScan_cancelled jid uid _ store2
    rw [h2, hqueue]
    apply List.any_eq_false.mpr
    intro t ht
    have hmem := List.mem_filter.mp ht
    have := hmem.2
    simp only [Bool.not_eq_eq_eq_not, Bool.not_true] at this
    simp [this]

theorem clamp100 : max (0 : Rat) (min 100 100) = 100 := by norm_num

/-- C3: when the processing handler returns without exception, the
coordinator re-reads the job record: a `COMPLETED` record forces the
task's progress to exactly 100 (the clamped store write also lands on
exactly 100) while the status mirrors the record, and a `job_completed`
notification with the final status and progress is emitted; a `FAILED`
record routes to the error path using the record's stored error message; a
missing record defaults the task to `COMPLETED` at progress 100. -/
theorem C3_success_refresh (s : ManagerState) (store : Store) (t : JobTask)
    (h : Handler) (store2 : Store)
    (hh : h (update_job_status store t.job_id JobStatus.processing none) =
      (store2, none)) :
    (∀ r, store2 t.job_id = some r → r.status = JobStatus.completed →
      (process_job s store t (some h)).task.progress = 100 ∧
      (process_job s store t (some h)).task.status = JobStatus.completed ∧
      (process_job s store t (some h)).store t.job_id =
        some { r with progress := some 100 } ∧
      (process_job s store t (some h)).notifs =
        [Notif.job_started t.user_id t.job_id,
         Notif.job_completed t.user_id t.job_id t.filename
           JobStatus.completed 100]) ∧
    (∀ r m, store2 t.job_id = some r → r.status = JobStatus.failed →
      r.error_message = some m → ¬(m = "") →
      (process_job s store t (some h)).task.status = JobStatus.failed ∧
      (process_job s store t (some h)).task.error_message = some m ∧
      (∃ r3, (process_job s store t (some h)).store t.job_id = some r3 ∧
        r3.status = JobStatus.failed ∧ r3.error_message = some m) ∧
      (process_job s store t (some h)).notifs =
        [Notif.job_started t.user_id t.job_id,
         Notif.job_failed t.user_id t.job_id m]) ∧
    (store2 t.job_id = none →
      (process_job s store t (some h)).task.status = JobStatus.completed ∧
      (process_job s store t (some h)).task.progress = 100 ∧
      (process_job s store t (some h)).store t.job_id = none ∧
      (process_job s store t (some h)).notifs =
        [Notif.job_started t.user_id t.job_id,
         Notif.job_completed t.user_id t.job_id t.filename
           JobStatus.completed 100]) := by
  refine ⟨?_, ?_, ?_⟩
  · intro r hr hst
    refine ⟨?_, ?_, ?_, ?_⟩
    · show (process_job_core
          (update_job_status store t.job_id JobStatus.processing none) t
          (some h)).2.1.progress = 100
      simp only [process_job_core, hh, hr, hst]
    · show (process_job_core
          (update_job_status store t.job_id JobStatus.processing none) t
          (some h)).2.1.status = JobStatus.completed
      simp only [process_job_core, hh, hr, hst]
    · show (process_job_core
          (update_job_status store t.job_id JobStatus.processing none) t
          (some h)).1 t.job_id = some { r with progress := some 100 }
      simp only [process_job_core, hh, hr, hst]
      simp [update_job_progress, hr, clamp100]
      exact hst
    · show Notif.job_started t.user_id t.job_id ::
          (process_job_core
            (update_job_status store t.job_id JobStatus.processing none) t
            (some h)).2.2 = _
      simp only [process_job_core, hh, hr, hst]
  · intro r m hr hst herr hm
    refine ⟨?_, ?_, ?_, ?_⟩
    · show (process_job_core
          (update_job_status store t.job_id JobStatus.processing none) t
          (some h)).2.1.status = JobStatus.failed
      simp only [process_job_core, hh, hr, hst, herr, if_neg hm, job_failure]
    · show (process_job_core
          (update_job_status store t.job_id JobStatus.processing none) t
          (some h)).2.1.error_message = some m
      simp only [process_job_core, hh, hr, hst, herr, if_neg hm, job_failure]
    · show ∃ r3, (process_job_core
          (update_job_status store t.job_id JobStatus.processing none) t
          (some h)).1 t.job_id = some r3 ∧
          r3.status = JobStatus.failed ∧ r3.error_message = some m
      simp only [process_job_core, hh, hr, hst, herr, if_neg hm, job_failure]
      refine ⟨_, update_job_status_self store2 t.job_id JobStatus.failed
        (some m) r hr, rfl, ?_⟩
      simp [if_neg hm]
    · show Notif.job_started t.user_id t.job_id ::
          (process_job_core
            (update_job_status store t.job_id JobStatus.processing none) t
            (some h)).2.2 = _
      simp only [process_job_core, hh, hr, hst, herr, if_neg hm, job_failure]
  · intro hr
    refine ⟨?_, ?_, ?_, ?_⟩
    · show (process_job_core
          (update_job_status store t.job_id JobStatus.processing none) t
          (some h)).2.1.status = JobStatus.completed
      simp only [process_job_core, hh, hr]
    · show (process_job_core
          (update_job_status store t.job_id JobStatus.processing none) t
          (some h)).2.1.progress = 100
      simp only [process_job_core, hh, hr]
    · show (process_job_core
          (update_job_status store t.job_id JobStatus.processing none) t
          (some h)).1 t.job_id = none
      simp only [process_job_core, hh, hr]
      simp [update_job_progress, hr]
    · show Notif.job_started t.user_id t.job_id ::
          (process_job_core
            (update_job_status store t.job_id JobStatus.processing none) t
            (some h)).2.2 = _
      simp only [process_job_core, hh, hr]

/-- C6: when no processing handler is registered, or when the handler
raises, the job ends on the failure path: the store record (when present
after the handler ran) holds `FAILED` with a non-empty error message, the
task is marked `FAILED` with the error recorded, a `job_failed`
notification carrying the error text is emitted, the task is removed from
the execution tracker, and the owner's counter is decremented, floored at
0 (truncated subtraction).  The no-handler error is the explicit
"no handler configured" message and is fatal only for this job: the model
of `_process_job` is a total function, mirroring the `except` block that
confines the failure. -/
theorem C6_failure_paths (s : ManagerState) (store : Store) (t : JobTask) :
    (∀ r, store t.job_id = some r →
      (process_job s store t none).task.status = JobStatus.failed ∧
      (process_job s store t none).task.error_message = some noHandlerMsg ∧
      ¬(noHandlerMsg = "") ∧
      (∃ r2, (process_job s store t none).store t.job_id = some r2 ∧
        r2.status = JobStatus.failed ∧ r2.error_message = some noHandlerMsg) ∧
      (process_job s store t none).notifs =
        [Notif.job_started t.user_id t.job_id,
         Notif.job_failed t.user_id t.job_id noHandlerMsg] ∧
      (∀ p ∈ (process_job s store t none).state.active_jobs, p.1 ≠ t.job_id) ∧
      (process_job s store t none).state.user_job_counts t.user_id =
        s.user_job_counts t.user_id - 1) ∧
    (∀ (h : Handler) (store2 : Store) (e : String) (r2 : JobRecord),
      ¬(e = "") →
      h (update_job_status store t.job_id JobStatus.processing none) =
        (store2, some e) →
      store2 t.job_id = some r2 →
      (process_job s store t (some h)).task.status = JobStatus.failed ∧
      (process_job s store t (some h)).task.error_message = some e ∧
      (∃ r3, (process_job s store t (some h)).store t.job_id = some r3 ∧
        r3.status = JobStatus.failed ∧ r3.error_message = some e) ∧
      (process_job s store t (some h)).notifs =
        [Notif.job_started t.user_id t.job_id,
         Notif.job_failed t.user_id t.job_id e] ∧
      (∀ p ∈ (process_job s store t (some h)).state.active_jobs,
        p.1 ≠ t.job_id) ∧
      (process_job s store t (some h)).state.user_job_counts t.user_id =
        s.user_job_counts t.user_id - 1) := by
  constructor
  · intro r hr
    have hs1 : update_job_status store t.job_id JobStatus.processing none
        t.job_id = some { r with status := JobStatus.processing } := by
      simp [update_job_status, hr]
    refine ⟨rfl, rfl, by decide, ?_, rfl, ?_, ?_⟩
    · refine ⟨_, update_job_status_self _ t.job_id JobStatus.failed
        (some noHandlerMsg) _ hs1, rfl, ?_⟩
      simp [noHandlerMsg]
    · intro p hp
      have := (List.mem_filter.mp hp).2
      simpa using this
    · simp [process_job_state, cleanup]
  · intro h store2 e r2 he hh hr
    refine ⟨?_, ?_, ?_, ?_, ?_, ?_⟩
    · show (process_job_core
          (update_job_status store t.job_id JobStatus.processing none) t
          (some h)).2.1.status = JobStatus.failed
      simp only [process_job_core, hh, job_failure]
    · show (process_job_core
          (update_job_status store t.job_id JobStatus.processing none) t
          (some h)).2.1.error_message = some e
      simp only [process_job_core, hh, job_failure]
    · show ∃ r3, (process_job_core
          (update_job_status store t.job_id JobStatus.processing none) t
          (some h)).1 t.job_id = some r3 ∧
          r3.status = JobStatus.failed ∧ r3.error_message = some e
      simp only [process_job_core, hh, job_failure]
      refine ⟨_, update_job_status_self store2 t.job_id JobStatus.failed
        (some e) r2 hr, rfl, ?_⟩
      simp [if_neg he]
    · show Notif.job_started t.user_id t.job_id ::
          (process_job_core
            (update_job_status store t.job_id JobStatus.processing none) t
            (some h)).2.2 = _
      simp only [process_job_core, hh, job_failure]
    · intro p hp
      have := (List.mem_filter.mp hp).2
      simpa using this
    · simp [process_job_state, cleanup]

/-- C4: `add_job` returns false and emits an `error` notification (leaving
the state untouched) whenever the caller's counter has reached
`max_jobs_per_user` or the queue is at `max_queue_size`; since a rejection
changes nothing, every further admission for that user keeps failing until
a task of theirs leaves.  In every reachable state the counter dominates
the user's actual number of tasks in queue and tracker, so a user who
actually holds at least `max_jobs_per_user` tasks is always rejected. -/
theorem C4_admission_control :
    (∀ (s : ManagerState) (store : Store) (jid uid : Nat) (fp fn : String)
        (pr : Int),
      s.max_jobs_per_user ≤ s.user_job_counts uid →
        (add_job s store jid uid fp fn pr).ok = false ∧
        (add_job s store jid uid fp fn pr).state = s ∧
        (add_job s store jid uid fp fn pr).notifs = [Notif.error uid]) ∧
    (∀ (s : ManagerState) (store : Store) (jid uid : Nat) (fp fn : String)
        (pr : Int),
      s.max_queue_size ≤ s.queue.length →
        (add_job s store jid uid fp fn pr).ok = false ∧
        (add_job s store jid uid fp fn pr).state = s ∧
        (add_job s store jid uid fp fn pr).notifs = [Notif.error uid]) ∧
    (∀ (mc mq : Nat) (mu : Option Nat) (s : ManagerState) (store : Store)
        (jid uid : Nat) (fp fn : String) (pr : Int),
      Reachable mc mq mu (s, store) →
        s.max_jobs_per_user ≤ userTaskCount s uid →
        (add_job s store jid uid fp fn pr).ok = false ∧
        (add_job s store jid uid fp fn pr).state = s ∧
        (add_job s store jid uid fp fn pr).notifs = [Notif.error uid]) := by
  refine ⟨?_, ?_, ?_⟩
  · intro s store jid uid fp fn pr h
    have hr := add_job_reject_of_cap s store jid uid fp fn pr h
    exact ⟨hr.1, hr.2.1, hr.2.2.2⟩
  · intro s store jid uid fp fn pr h
    by_cases h1 : s.max_jobs_per_user ≤ s.user_job_counts uid
    · have hr := add_job_reject_of_cap s store jid uid fp fn pr h1
      exact ⟨hr.1, hr.2.1, hr.2.2.2⟩
    · have hr := add_job_reject_of_full s store jid uid fp fn pr h
      exact ⟨hr.1, hr.2.1, hr.2.2.2⟩
  · intro mc mq mu s store jid uid fp fn pr hreach hcount
    have hinv := reachable_inv mc mq mu (s, store) hreach
    have hle : s.max_jobs_per_user ≤ s.user_job_counts uid :=
      le_trans hcount (hinv.2 uid)
    have hr := add_job_reject_of_cap s store jid uid fp fn pr hle
    exact ⟨hr.1, hr.2.1, hr.2.2.2⟩

/-- C5: the queue never exceeds `max_queue_size` in any reachable state;
an admission attempted against a full queue returns false rather than
blocking; and after `max_queue_size` successful admissions from a fresh
manager with no cancellations in between, the next admission attempt
returns false. -/
theorem C5_queue_bound :
    (∀ (mc mq : Nat) (mu : Option Nat) (p : ManagerState × Store),
      Reachable mc mq mu p → p.1.queue.length ≤ p.1.max_queue_size) ∧
    (∀ (s : ManagerState) (store : Store) (jid uid : Nat) (fp fn : String)
        (pr : Int),
      s.max_queue_size ≤ s.queue.length →
        (add_job s store jid uid fp fn pr).ok = false) ∧
    (∀ (mc mq : Nat) (mu : Option Nat) (st0 : Store) (reqs : List AdmitReq),
      reqs.length = mq →
      (runAdmits (initState mc mq mu) st0 reqs).2.2.all id = true →
      ∀ (jid uid : Nat) (fp fn : String) (pr : Int),
        (add_job (runAdmits (initState mc mq mu) st0 reqs).1
          (runAdmits (initState mc mq mu) st0 reqs).2.1
          jid uid fp fn pr).ok = false) := by
  refine ⟨?_, ?_, ?_⟩
  · intro mc mq mu p hreach
    exact (reachable_inv mc mq mu p hreach).1
  · intro s store jid uid fp fn pr h
    exact (add_job_reject_of_full s store jid uid fp fn pr h).1
  · intro mc mq mu st0 reqs hlen hall jid uid fp fn pr
    have hrun := runAdmits_all_ok reqs (initState mc mq mu) st0 hall
    have hfull : (runAdmits (initState mc mq mu) st0 reqs).1.max_queue_size ≤
        (runAdmits (initState mc mq mu) st0 reqs).1.queue.length := by
      rw [hrun.1, hrun.2]
      simp [initState, hlen]
    exact (add_job_reject_of_full _ _ jid uid fp fn pr hfull).1

/-- C7: the status query reports the number of tracker entries owned by
the user as `active_jobs`, the number of the user's queued tasks as
`queued_jobs`, the full queue length as `total_queue_size`, and lists the
user's queued jobs with 1-based positions among that user's own queued
jobs in queue order (`posMap 1`), after the user's active jobs. -/
theorem C7_status_query (s : ManagerState) (u : Nat) :
    (get_queue_status s u).1.active_jobs =
      (s.active_jobs.filter (fun p => p.2.user_id == u)).length ∧
    (get_queue_status s u).1.queued_jobs =
      (s.queue.filter (fun t => t.user_id == u)).length ∧
    (get_queue_status s u).1.total_queue_size = s.queue.length ∧
    (get_queue_status s u).1.jobs =
      ((s.active_jobs.map Prod.snd).filter
        (fun t => t.user_id == u)).map activeInfo ++
        posMap 1 (s.queue.filter (fun t => t.user_id == u)) := by
  refine ⟨?_, ?_, ?_, ?_⟩
  · show ((s.active_jobs.map Prod.snd).filter
        (fun t => t.user_id == u)).length = _
    rw [List.filter_map, List.length_map]
    rfl
  · show (gqsScan u s.queue 0).count = _
    rw [gqsScan_count]
    omega
  · show (gqsScan u s.queue 0).temp.length = _
    rw [gqsScan_temp]
  · show _ ++ (gqsScan u s.queue 0).infos = _
    rw [gqsScan_infos]

/-- C8: an accepted admission constructs a `QUEUED` task, appends it to
the queue, increments the user's counter, writes `QUEUED` to the store and
emits a `job_queued` notification whose `queue_position` is the task's
1-based position at insertion time (the new queue length — the task sits
at the back); the recorded side-effect trace starts with the enqueue and
performs the store write strictly after it, and folding the trace
reproduces exactly the state, store and notifications `add_job` returns. -/
theorem C8_accept_effects (s : ManagerState) (store : Store) (jid uid : Nat)
    (fp fn : String) (pr : Int)
    (h1 : s.user_job_counts uid < s.max_jobs_per_user)
    (h2 : s.queue.length < s.max_queue_size) :
    (add_job s store jid uid fp fn pr).ok = true ∧
    (mkJobTask jid uid fp fn pr).status = JobStatus.queued ∧
    (add_job s store jid uid fp fn pr).state.queue =
      s.queue ++ [mkJobTask jid uid fp fn pr] ∧
    (add_job s store jid uid fp fn pr).state.user_job_counts uid =
      s.user_job_counts uid + 1 ∧
    (add_job s store jid uid fp fn pr).store =
      update_job_status store jid JobStatus.queued none ∧
    (add_job s store jid uid fp fn pr).notifs =
      [Notif.job_queued uid jid (s.queue.length + 1)] ∧
    s.queue.length + 1 = (add_job s store jid uid fp fn pr).state.queue.length ∧
    (∃ rest, add_job_trace s jid uid fp fn pr =
      AddEvent.enqueue (mkJobTask jid uid fp fn pr) :: rest ∧
      AddEvent.storeWrite jid JobStatus.queued ∈ rest) ∧
    List.foldl applyAddEvent (s, store, []) (add_job_trace s jid uid fp fn pr) =
      ((add_job s store jid uid fp fn pr).state,
       (add_job s store jid uid fp fn pr).store,
       (add_job s store jid uid fp fn pr).notifs) := by
  have hacc := add_job_accept s store jid uid fp fn pr h1 h2
  have htr : add_job_trace s jid uid fp fn pr =
      [AddEvent.enqueue (mkJobTask jid uid fp fn pr),
       AddEvent.bumpCount uid,
       AddEvent.storeWrite jid JobStatus.queued,
       AddEvent.notify (Notif.job_queued uid jid (s.queue.length + 1))] := by
    rw [add_job_trace, if_neg (by omega), if_neg (by omega)]
  refine ⟨by rw [hacc], rfl, by rw [hacc], by rw [hacc]; simp,
    by rw [hacc], by rw [hacc], ?_, ?_, add_job_trace_fold s store jid uid fp fn pr⟩
  · rw [hacc]
    simp
  · exact ⟨_, htr, by simp⟩

/-- C9: the relative order of the tasks left in the queue is preserved by
every scan-and-rebuild cycle: a cancellation leaves exactly the
non-matching tasks in their original relative order (the new queue is a
filter, hence a sublist, of the old one), and a status query leaves the
queue unchanged. -/
theorem C9_fifo_preserved (s : ManagerState) (store : Store)
    (jid uid u : Nat) :
    (cancel_job s store jid uid).state.queue =
      s.queue.filter (fun t => !(t.job_id == jid && t.user_id == uid)) ∧
    List.Sublist (cancel_job s store jid uid).state.queue s.queue ∧
    (get_queue_status s u).2.queue = s.queue := by
  have hq : (cancel_job s store jid uid).state.queue =
      s.queue.filter (fun t => !(t.job_id == jid && t.user_id == uid)) :=
    cancelScan_temp jid uid s.queue store
  refine ⟨hq, ?_, ?_⟩
  · rw [hq]
    exact List.filter_sublist s.queue
  · show (gqsScan u s.queue 0).temp = s.queue
    exact gqsScan_temp u s.queue 0

/-- C10: the status query is observationally read-only: although it drains
and rebuilds the queue internally, the returned state has exactly the
original queue, tracker and per-user counters — it is the original state. -/
theorem C10_status_frame (s : ManagerState) (u : Nat) :
    (get_queue_status s u).2.queue = s.queue ∧
    (get_queue_status s u).2.active_jobs = s.active_jobs ∧
    (get_queue_status s u).2.user_job_counts = s.user_job_counts ∧
    (get_queue_status s u).2 = s := by
  have h := get_queue_status_state s u
  exact ⟨by rw [h], by rw [h], by rw [h], h⟩

/-- C2 witness: cancelling queued job 1 of user 10 concretely returns
true, persists `CANCELLED`, notifies, and a second cancel returns false. -/
theorem C2_cancel_semantics_witness :
    (cancel_job wState1 wStore 1 10).cancelled = true ∧
    (∃ r2, (cancel_job wState1 wStore 1 10).store 1 = some r2 ∧
      r2.status = JobStatus.cancelled) ∧
    Notif.job_cancelled 10 1 ∈ (cancel_job wState1 wStore 1 10).notifs ∧
    (∀ store2 : Store,
      (cancel_job (cancel_job wState1 wStore 1 10).state store2 1 10).cancelled =
        false) := by
  have h := C2_cancel_semantics wState1 wStore 1 10
  have hc : (cancel_job wState1 wStore 1 10).cancelled = true :=
    h.1.mpr ⟨wTask, by simp [wState1], rfl, rfl⟩
  have h3 := h.2.2.1 hc
  exact ⟨hc, h3.1 _ rfl, h3.2, h.2.2.2.2⟩

/-- C3 witness: a handler that writes `COMPLETED` (progress left at 37)
concretely yields a task forced to progress 100, a store record at
progress exactly 100, and the `job_completed` notification. -/
theorem C3_success_refresh_witness :
    (process_job (initState 3 50 none) wStore wTask (some wHandlerDone)).task.progress
        = 100 ∧
    (process_job (initState 3 50 none) wStore wTask (some wHandlerDone)).task.status
        = JobStatus.completed ∧
    (process_job (initState 3 50 none) wStore wTask (some wHandlerDone)).store 1
        = some { wRec with progress := some 100 } ∧
    (process_job (initState 3 50 none) wStore wTask (some wHandlerDone)).notifs =
      [Notif.job_started 10 1,
       Notif.job_completed 10 1 "a.wav" JobStatus.completed 100] :=
  (C3_success_refresh (initState 3 50 none) wStore wTask wHandlerDone wStore2
    rfl).1 wRec rfl rfl

/-- C4 witness: concrete rejections at the per-user cap and at a full
queue, and a rejection forced by the actual task count in a reachable
state. -/
theorem C4_admission_control_witness :
    ((add_job wStateCap wStore 2 10 "p" "f" 0).ok = false ∧
      (add_job wStateCap wStore 2 10 "p" "f" 0).state = wStateCap ∧
      (add_job wStateCap wStore 2 10 "p" "f" 0).notifs = [Notif.error 10]) ∧
    ((add_job wStateFull wStore 2 11 "p" "f" 0).ok = false ∧
      (add_job wStateFull wStore 2 11 "p" "f" 0).state = wStateFull ∧
      (add_job wStateFull wStore 2 11 "p" "f" 0).notifs = [Notif.error 11]) ∧
    ((add_job wAfterAddCap.state wAfterAddCap.store 2 10 "p" "f" 0).ok = false ∧
      (add_job wAfterAddCap.state wAfterAddCap.store 2 10 "p" "f" 0).state =
        wAfterAddCap.state ∧
      (add_job wAfterAddCap.state wAfterAddCap.store 2 10 "p" "f" 0).notifs =
        [Notif.error 10]) := by
  refine ⟨C4_admission_control.1 wStateCap wStore 2 10 "p" "f" 0 (by decide),
    C4_admission_control.2.1 wStateFull wStore 2 11 "p" "f" 0 (by decide),
    C4_admission_control.2.2 3 50 (some 1) wAfterAddCap.state wAfterAddCap.store
      2 10 "p" "f" 0
      ⟨wStore, Relation.ReflTransGen.tail Relation.ReflTransGen.refl
        (Step.admit_step (initState 3 50 (some 1)) wStore 1 10 "uploads/a.wav"
          "a.wav" 0)⟩
      (by decide)⟩

/-- C5 witness: the fresh manager is within its bound, a full queue
rejects the next admission, and after filling a bound-1 queue with one
successful admission the second admission attempt returns false. -/
theorem C5_queue_bound_witness :
    (initState 3 1 none).queue.length ≤ (initState 3 1 none).max_queue_size ∧
    (add_job wStateFull wStore 2 11 "p" "f" 0).ok = false ∧
    (add_job (runAdmits (initState 3 1 none) wStore [wReq]).1
      (runAdmits (initState 3 1 none) wStore [wReq]).2.1 2 11 "p" "f" 0).ok =
      false := by
  refine ⟨C5_queue_bound.1 3 1 none (initState 3 1 none, wStore)
      ⟨wStore, Relation.ReflTransGen.refl⟩,
    C5_queue_bound.2.1 wStateFull wStore 2 11 "p" "f" 0 (by decide),
    C5_queue_bound.2.2 3 1 none wStore [wReq] rfl (by decide) 2 11 "p" "f" 0⟩

/-- C6 witness: with no handler registered, job 1 concretely fails with
the explicit no-handler error in task, store and notification, and the
owner's counter ends at 0; a raising handler likewise marks the task
`FAILED`. -/
theorem C6_failure_paths_witness :
    (process_job (initState 3 50 none) wStore wTask none).task.status =
        JobStatus.failed ∧
    (process_job (initState 3 50 none) wStore wTask none).task.error_message =
        some noHandlerMsg ∧
    (∃ r2, (process_job (initState 3 50 none) wStore wTask none).store 1 =
        some r2 ∧ r2.status = JobStatus.failed ∧
        r2.error_message = some noHandlerMsg) ∧
    (process_job (initState 3 50 none) wStore wTask none).notifs =
      [Notif.job_started 10 1, Notif.job_failed 10 1 noHandlerMsg] ∧
    (process_job (initState 3 50 none) wStore wTask none).state.user_job_counts
        10 = 0 ∧
    (process_job (initState 3 50 none) wStore wTask
        (some wHandlerBoom)).task.status = JobStatus.failed := by
  have h := (C6_failure_paths (initState 3 50 none) wStore wTask).1
    { status := JobStatus.queued, progress := some 37, error_message := none } rfl
  have h2 := (C6_failure_paths (initState 3 50 none) wStore wTask).2 wHandlerBoom
    (update_job_status wStore 1 JobStatus.processing none) "boom"
    { status := JobStatus.processing, progress := some 37, error_message := none }
    (by decide) rfl rfl
  exact ⟨h.1, h.2.1, h.2.2.2.1, h.2.2.2.2.1, h.2.2.2.2.2.2, h2.1⟩

/-- C8 witness: a concrete accepted admission into a fresh manager
returns true, notifies position 1, and its side-effect trace starts with
the enqueue and performs the store write later. -/
theorem C8_accept_effects_witness :
    (add_job (initState 3 50 none) wStore 1 10 "uploads/a.wav" "a.wav" 0).ok =
        true ∧
    (add_job (initState 3 50 none) wStore 1 10 "uploads/a.wav" "a.wav" 0).notifs =
      [Notif.job_queued 10 1 1] ∧
    (∃ rest, add_job_trace (initState 3 50 none) 1 10 "uploads/a.wav" "a.wav" 0 =
      AddEvent.enqueue (mkJobTask 1 10 "uploads/a.wav" "a.wav" 0) :: rest ∧
      AddEvent.storeWrite 1 JobStatus.queued ∈ rest) := by
  have h := C8_accept_effects (initState 3 50 none) wStore 1 10 "uploads/a.wav"
    "a.wav" 0 (by decide) (by decide)
  exact ⟨h.1, h.2.2.2.2.2.1, h.2.2.2.2.2.2.2.1⟩

end MeetingASR
